import Mathlib

/-!
Verification of the clawg-ui AG-UI bridge plugin.

Shallow embedding of the session-scoped translation and tool-call lifecycle
state machine of the clawg-ui repository:

* `src/src/tool-store.ts` — the per-session state store (`Store` and its
  operations).  The store maps are embedded as total functions
  `String → _` with the defaults the source produces for absent keys
  (`Map.get` returning `undefined` becomes `none` / `false` / `[]`).
* `src/index.ts` — the two tool-call lifecycle hooks
  (`handleBeforeToolCall` for `before_tool_call`, `handleToolResultPersist`
  for `tool_result_persist`).  Each hook is a function from the store (and
  the hook payload) to the updated store together with the list of events it
  passed to the session's bound writer, in order.
* `src/src/http-handler.ts` — the per-run dispatcher and orchestrator
  (`writeEvent`, `sendBlockReply`, `sendFinalReply`, the defensive close,
  the error close, and the `finally` cleanup), embedded as a state machine
  over `RunState`.  The host pipeline's unpredictable callback interleaving
  is a list of `Act`s folded over the state; a dispatch failure is the
  `throws` parameter of `runRest`/`runModel`.  A possible `res.write`
  failure is an oracle `fails : Nat → Bool` consulted at each write attempt;
  the source's `try/catch` around `res.write` becomes the failure branch of
  `writeEvent` (total, so no exception can escape by construction).
-/

/-- An AG-UI client tool definition (`Tool` of `@ag-ui/core`), restricted to
the fields the core reads: name, description and an opaque parameter
schema. -/
structure Tool where
  name : String
  description : String
  parameters : Option String
  deriving DecidableEq, Repr

/-- The outbound AG-UI event vocabulary emitted by the plugin
(`EventType` values used in `src/index.ts` and `src/src/http-handler.ts`),
with the fields each emission site attaches. -/
inductive Event where
  | runStarted (threadId runId : String)
  | textMessageStart (messageId : String)
  | textMessageContent (messageId delta : String)
  | textMessageEnd (messageId : String)
  | toolCallStart (toolCallId toolCallName : String)
  | toolCallArgs (toolCallId delta : String)
  | toolCallResult (toolCallId messageId content : String)
  | toolCallEnd (toolCallId : String)
  | runFinished (threadId runId : String)
  | runError (message : String)
  deriving DecidableEq, Repr

/-- Pointwise update of a keyed map embedded as a total function. -/
def upd {α : Type} (f : String → α) (k : String) (v : α) : String → α :=
  fun k' => if k' = k then v else f k'

/-- The process-wide session state store of `src/src/tool-store.ts`
(latest version, with the message-id store).  JavaScript `Map`s keyed by
session key become total functions returning the source's miss default:
`toolStore.get(sk)` with no entry is `none`, a missing writer is `false`
(only the presence of the bound writer is observable in this embedding —
the writer itself is the run's `writeEvent`), a missing pending stack is
`[]` (indistinguishable from the deleted-when-drained entry), a missing
client-tool-name set is `none`, and missing boolean flags are `false`.
The `toolFiredInRunFlags` field backs `setToolFiredInRun` /
`wasToolFiredInRun` / `clearToolFiredInRun`, which `src/index.ts` and the
tests import but whose definition is not among the source files. -/
structure Store where
  toolStore : String → Option (List Tool)
  writerStore : String → Bool
  messageIdStore : String → Option String
  pendingStacks : String → List String
  clientToolNames : String → Option (List String)
  clientToolCalledFlags : String → Bool
  toolFiredInRunFlags : String → Bool

/-- The store with no session initialized: every map is empty. -/
def emptyStore : Store where
  toolStore := fun _ => none
  writerStore := fun _ => false
  messageIdStore := fun _ => none
  pendingStacks := fun _ => []
  clientToolNames := fun _ => none
  clientToolCalledFlags := fun _ => false
  toolFiredInRunFlags := fun _ => false

/-- `stashTools(sessionKey, tools)`: store the client tool list. -/
def stashTools (sk : String) (tools : List Tool) (σ : Store) : Store :=
  { σ with toolStore := upd σ.toolStore sk (some tools) }

/-- `popTools(sessionKey)`: drain and return the stashed tool list
(`?? []` on a missing entry, then delete the entry). -/
def popTools (sk : String) (σ : Store) : List Tool × Store :=
  (σ.toolStore sk |>.getD [], { σ with toolStore := upd σ.toolStore sk none })

/-- `setWriter(sessionKey, writer, messageId)`: bind the writer and the
run message-id.  The HTTP handler in `src/src/http-handler.ts` calls
`setWriter(sessionKey, writeEvent)` without a message-id argument, which
under this signature stores `undefined`; the `mid` parameter is therefore
an `Option`, `none` at that call site. -/
def setWriter (sk : String) (mid : Option String) (σ : Store) : Store :=
  { σ with
    writerStore := upd σ.writerStore sk true
    messageIdStore := upd σ.messageIdStore sk mid }

/-- `getWriter(sessionKey)` reduced to the observable fact used by the
hooks: whether a writer is bound. -/
def getWriter (σ : Store) (sk : String) : Bool :=
  σ.writerStore sk

/-- `getMessageId(sessionKey)`. -/
def getMessageId (σ : Store) (sk : String) : Option String :=
  σ.messageIdStore sk

/-- `clearWriter(sessionKey)`: delete the writer binding and the
message-id entry. -/
def clearWriter (sk : String) (σ : Store) : Store :=
  { σ with
    writerStore := upd σ.writerStore sk false
    messageIdStore := upd σ.messageIdStore sk none }

/-- `pushToolCallId(sessionKey, toolCallId)`: append to the per-session
pending stack (`Array.push`). -/
def pushToolCallId (sk : String) (toolCallId : String) (σ : Store) : Store :=
  { σ with pendingStacks := upd σ.pendingStacks sk (σ.pendingStacks sk ++ [toolCallId]) }

/-- `popToolCallId(sessionKey)`: `stack?.pop()` removes and returns the
last element; an empty or missing stack yields `undefined`.  The source
additionally deletes a drained entry, which is indistinguishable from the
empty-list default here. -/
def popToolCallId (sk : String) (σ : Store) : Option String × Store :=
  match (σ.pendingStacks sk).getLast? with
  | none => (none, σ)
  | some id =>
      (some id,
       { σ with pendingStacks := upd σ.pendingStacks sk (σ.pendingStacks sk).dropLast })

/-- `markClientToolNames(sessionKey, names)`: record the set of
client-executed tool names (membership is all that is consulted, so the
`Set` is embedded as the name list). -/
def markClientToolNames (sk : String) (names : List String) (σ : Store) : Store :=
  { σ with clientToolNames := upd σ.clientToolNames sk (some names) }

/-- `isClientTool(sessionKey, toolName)`:
`clientToolNames.get(sessionKey)?.has(toolName) ?? false`. -/
def isClientTool (σ : Store) (sk : String) (toolName : String) : Bool :=
  match σ.clientToolNames sk with
  | some names => names.contains toolName
  | none => false

/-- `clearClientToolNames(sessionKey)`. -/
def clearClientToolNames (sk : String) (σ : Store) : Store :=
  { σ with clientToolNames := upd σ.clientToolNames sk none }

/-- `setClientToolCalled(sessionKey)`. -/
def setClientToolCalled (sk : String) (σ : Store) : Store :=
  { σ with clientToolCalledFlags := upd σ.clientToolCalledFlags sk true }

/-- `wasClientToolCalled(sessionKey)` (`?? false` on a missing entry). -/
def wasClientToolCalled (σ : Store) (sk : String) : Bool :=
  σ.clientToolCalledFlags sk

/-- `clearClientToolCalled(sessionKey)`. -/
def clearClientToolCalled (sk : String) (σ : Store) : Store :=
  { σ with clientToolCalledFlags := upd σ.clientToolCalledFlags sk false }

/-- Modelled from the spec: `setToolFiredInRun(sessionKey)` is imported by
`src/index.ts` from the tool store but its definition is not among the
source files; spec §4.1 specifies "set/query/clear two independent
per-session booleans", so it sets the per-session "a tool fired during
this run" boolean, exactly like `setClientToolCalled` sets its flag. -/
def setToolFiredInRun (sk : String) (σ : Store) : Store :=
  { σ with toolFiredInRunFlags := upd σ.toolFiredInRunFlags sk true }

/-- Modelled from the spec: `wasToolFiredInRun(sessionKey)` queries the
per-session "a tool fired during this run" boolean, `false` on a missing
entry (spec §4.1: every read returns a defined default). -/
def wasToolFiredInRun (σ : Store) (sk : String) : Bool :=
  σ.toolFiredInRunFlags sk

/-- Modelled from the spec: `clearToolFiredInRun(sessionKey)` clears the
per-session "a tool fired during this run" boolean. -/
def clearToolFiredInRun (sk : String) (σ : Store) : Store :=
  { σ with toolFiredInRunFlags := upd σ.toolFiredInRunFlags sk false }

/-- `JSON.stringify(event.params)` for a parameter object whose values are
strings (the shape exercised by the repository's tests, e.g.
`{"city":"Tokyo"}`). -/
def serializeParams (ps : List (String × String)) : String :=
  "\x7b" ++ String.intercalate ","
    (ps.map (fun p => "\"" ++ p.1 ++ "\":\"" ++ p.2 ++ "\"")) ++ "\x7d"

/-- `event.params && Object.keys(event.params).length > 0`: a parameter
object was supplied and is non-empty. -/
def paramsNonempty : Option (List (String × String)) → Bool
  | some ps => ps.length > 0
  | none => false

/-- The `TOOL_CALL_ARGS` emission of the before-call hook: one event
carrying the serialized parameters when a non-empty parameter object is
present, nothing otherwise. -/
def argsEvents (toolCallId : String) : Option (List (String × String)) → List Event
  | some ps =>
      if ps.length > 0 then [Event.toolCallArgs toolCallId (serializeParams ps)] else []
  | none => []

/-- The `before_tool_call` hook of `src/index.ts` (latest version).  Given
the tool name, the optional parameter object, the context session key and
the freshly generated tool-call id (`tool-${randomUUID()}`), it returns the
updated store and the events it passed to the session's writer, in order:
no-op without a session key or bound writer; otherwise `TOOL_CALL_START`,
then `setToolFiredInRun`, then `TOOL_CALL_ARGS` for non-empty params, then
either (client tool) `TOOL_CALL_END` plus `setClientToolCalled`, or
(server tool) `pushToolCallId` with no end event. -/
def handleBeforeToolCall (toolName : String) (params : Option (List (String × String)))
    (sessionKey : Option String) (toolCallId : String) (σ : Store) : Store × List Event :=
  match sessionKey with
  | none => (σ, [])
  | some sk =>
      if getWriter σ sk = false then (σ, [])
      else
        let σ1 := setToolFiredInRun sk σ
        let evs := Event.toolCallStart toolCallId toolName :: argsEvents toolCallId params
        if isClientTool σ1 sk toolName then
          (setClientToolCalled sk σ1, evs ++ [Event.toolCallEnd toolCallId])
        else
          (pushToolCallId sk toolCallId σ1, evs)

/-- The `tool_result_persist` hook of `src/index.ts` (latest version).
No-op without a session key; otherwise it looks up the writer, pops the
most recent pending tool-call id (mutating the stack regardless of what
follows), reads the run message-id, and only if all three are present
emits `TOOL_CALL_RESULT` (popped id, message-id, empty content) followed
by `TOOL_CALL_END` (same id). -/
def handleToolResultPersist (sessionKey : Option String) (σ : Store) : Store × List Event :=
  match sessionKey with
  | none => (σ, [])
  | some sk =>
      let hasWriter := getWriter σ sk
      let popped := popToolCallId sk σ
      let mid := getMessageId popped.2 sk
      match hasWriter, popped.1, mid with
      | true, some toolCallId, some messageId =>
          (popped.2,
           [Event.toolCallResult toolCallId messageId "", Event.toolCallEnd toolCallId])
      | _, _, _ => (popped.2, [])

/-- The per-run identifiers of `handleAguiRequest`: session key, thread id,
run id (from the request or generated), and the run's shared assistant
message id (`msg-${randomUUID()}`). -/
structure RunCtx where
  sk : String
  threadId : String
  runId : String
  messageId : String

/-- The mutable per-run state of `handleAguiRequest`: the `closed` flag,
the `messageStarted` flag, the number of `res.write` attempts so far (the
index the write-failure oracle is consulted at), the events successfully
written to the response stream, whether `res.end()` was called, the shared
session store, and the counter generating fresh tool-call ids. -/
structure RunState where
  closed : Bool
  messageStarted : Bool
  attempts : Nat
  out : List Event
  ended : Bool
  store : Store
  nextId : Nat

/-- `writeEvent` of `src/src/http-handler.ts`: a no-op once `closed`;
otherwise attempt `res.write` — on failure (the oracle `fails` at the
current attempt index, standing for the `catch` branch) flip `closed` and
write nothing; on success append the event to the stream.  Total, so the
source's guarantee that no write exception escapes is by construction. -/
def writeEvent (fails : Nat → Bool) (s : RunState) (e : Event) : RunState :=
  if s.closed then s
  else if fails s.attempts then { s with closed := true, attempts := s.attempts + 1 }
  else { s with out := s.out ++ [e], attempts := s.attempts + 1 }

/-- Sequential `writeEvent` calls, in order. -/
def writeEvents (fails : Nat → Bool) (s : RunState) (es : List Event) : RunState :=
  es.foldl (writeEvent fails) s

/-- The healthy-transport oracle: no `res.write` ever fails. -/
def noFail : Nat → Bool := fun _ => false

/-- `dispatcher.sendBlockReply` of `src/src/http-handler.ts`: no-op when
the stream is closed or a client tool already fired this run; no-op on
empty (trimmed) text; otherwise emit `TEXT_MESSAGE_START` first if no
message was started yet, then the `TEXT_MESSAGE_CONTENT` delta. -/
def sendBlockReply (fails : Nat → Bool) (rc : RunCtx) (payload : Option String)
    (s : RunState) : RunState :=
  if s.closed || wasClientToolCalled s.store rc.sk then s
  else
    let text := (payload.getD "").trim
    if text = "" then s
    else
      let s1 :=
        if s.messageStarted then s
        else writeEvent fails { s with messageStarted := true }
          (Event.textMessageStart rc.messageId)
      writeEvent fails s1 (Event.textMessageContent rc.messageId text)

/-- `dispatcher.sendFinalReply` of `src/src/http-handler.ts`: no-op when
closed; the terminal text is discarded when a client tool fired, else
trimmed; non-empty text opens the message if needed and emits one more
content delta; then `TEXT_MESSAGE_END` iff a message was started; then
`RUN_FINISHED`; then `closed = true` and `res.end()`. -/
def sendFinalReply (fails : Nat → Bool) (rc : RunCtx) (payload : Option String)
    (s : RunState) : RunState :=
  if s.closed then s
  else
    let text := if wasClientToolCalled s.store rc.sk then "" else (payload.getD "").trim
    let s1 :=
      if text = "" then s
      else
        let s0 :=
          if s.messageStarted then s
          else writeEvent fails { s with messageStarted := true }
            (Event.textMessageStart rc.messageId)
        writeEvent fails s0 (Event.textMessageContent rc.messageId text)
    let s2 :=
      if s1.messageStarted then writeEvent fails s1 (Event.textMessageEnd rc.messageId)
      else s1
    let s3 := writeEvent fails s2 (Event.runFinished rc.threadId rc.runId)
    { s3 with closed := true, ended := true }

/-- One callback the host pipeline may issue, at a time the core does not
control, while `dispatchReplyFromConfig` is running: the dispatcher
methods, the two lifecycle hooks (for this run's session), or a client
disconnect (the `close` listener setting `closed`). -/
inductive Act where
  | block (payload : Option String)
  | final (payload : Option String)
  | toolResult (payload : Option String)
  | beforeTool (toolName : String) (params : Option (List (String × String)))
  | afterTool
  | disconnect
  deriving DecidableEq, Repr

/-- Interpret one host-pipeline callback on the run state.
`sendToolResult` only reports `!closed` and emits nothing.  The hooks
mutate the store and route their events through this run's `writeEvent`
(the bound writer).  Tool-call ids are `tool-` plus a fresh counter value,
standing for `tool-${randomUUID()}`. -/
def runStep (fails : Nat → Bool) (rc : RunCtx) (s : RunState) : Act → RunState
  | Act.block payload => sendBlockReply fails rc payload s
  | Act.final payload => sendFinalReply fails rc payload s
  | Act.toolResult _ => s
  | Act.beforeTool toolName params =>
      let gid := "tool-" ++ toString s.nextId
      let r := handleBeforeToolCall toolName params (some rc.sk) gid s.store
      writeEvents fails { s with store := r.1, nextId := s.nextId + 1 } r.2
  | Act.afterTool =>
      let r := handleToolResultPersist (some rc.sk) s.store
      writeEvents fails { s with store := r.1 } r.2
  | Act.disconnect => { s with closed := true }

/-- Fold the host pipeline's callbacks over the run state, in call order
(single-threaded emission, no reordering). -/
def runSteps (fails : Nat → Bool) (rc : RunCtx) (s : RunState) : List Act → RunState
  | [] => s
  | a :: rest => runSteps fails rc (runStep fails rc s a) rest

/-- The defensive close after `dispatchReplyFromConfig` returns normally:
if the final reply never closed the stream, emit `TEXT_MESSAGE_END` if a
message was started, then `RUN_FINISHED`, set `closed`, `res.end()`. -/
def closeNormal (fails : Nat → Bool) (rc : RunCtx) (s : RunState) : RunState :=
  if s.closed then s
  else
    let s1 :=
      if s.messageStarted then writeEvent fails s (Event.textMessageEnd rc.messageId)
      else s
    let s2 := writeEvent fails s1 (Event.runFinished rc.threadId rc.runId)
    { s2 with closed := true, ended := true }

/-- The `catch` branch around dispatch: if the stream is still open, emit
`RUN_ERROR` with the error description, set `closed`, `res.end()`. -/
def closeError (fails : Nat → Bool) (rc : RunCtx) (errMsg : String) (s : RunState) : RunState :=
  if s.closed then s
  else { writeEvent fails s (Event.runError errMsg) with closed := true, ended := true }

/-- The `finally` cleanup of `handleAguiRequest`: `clearWriter`,
`clearClientToolCalled`, `clearClientToolNames`, in that order. -/
def cleanup (sk : String) (σ : Store) : Store :=
  clearClientToolNames sk (clearClientToolCalled sk (clearWriter sk σ))

/-- The run from the point dispatch is invoked: fold the host callbacks,
then the normal defensive close (`throws = none`) or the error close
(`throws = some msg`), then the guaranteed `finally` cleanup. -/
def runRest (fails : Nat → Bool) (rc : RunCtx) (s : RunState) (acts : List Act)
    (throws : Option String) : RunState :=
  let s3 := runSteps fails rc s acts
  let s4 :=
    match throws with
    | none => closeNormal fails rc s3
    | some msg => closeError fails rc msg s3
  { s4 with store := cleanup rc.sk s4.store }

/-- One whole run of `handleAguiRequest` after validation, over an initial
store `σ₀` (possibly holding stale state from earlier runs): emit
`RUN_STARTED` first; stash the request's client tools and mark their names
if any were supplied; bind the writer (`setWriter(sessionKey, writeEvent)`
— no message-id argument at this call site); then dispatch (`acts`,
`throws`) followed by the guaranteed close and cleanup. -/
def runModel (fails : Nat → Bool) (rc : RunCtx) (tools : List Tool) (acts : List Act)
    (throws : Option String) (σ₀ : Store) : RunState :=
  let s0 : RunState :=
    { closed := false, messageStarted := false, attempts := 0, out := [],
      ended := false, store := σ₀, nextId := 0 }
  let s1 := writeEvent fails s0 (Event.runStarted rc.threadId rc.runId)
  let σ1 :=
    if tools.isEmpty then s1.store
    else markClientToolNames rc.sk (tools.map (fun t => t.name)) (stashTools rc.sk tools s1.store)
  let σ2 := setWriter rc.sk none σ1
  runRest fails rc { s1 with store := σ2 } acts throws

/-- An event is one of the two mutually exclusive terminal events. -/
def isTerminal : Event → Bool
  | Event.runFinished _ _ => true
  | Event.runError _ => true
  | _ => false

/-- An event is assistant text content or its opening marker — the events
the client-tool suppression invariant forbids. -/
def isTextStartOrContent : Event → Bool
  | Event.textMessageStart _ => true
  | Event.textMessageContent _ _ => true
  | _ => false

/-- A concrete run context used by the concrete witness runs. -/
def sampleCtx : RunCtx :=
  { sk := "s", threadId := "t", runId := "r", messageId := "m" }

/-- The dispatcher state at the start of a run, over the empty store. -/
def sampleInit : RunState :=
  { closed := false, messageStarted := false, attempts := 0, out := [],
    ended := false, store := emptyStore, nextId := 0 }

/-- A store as the unit tests build it: a writer bound with message-id
`msg-001` and one pending host-executed tool call `tc-1`. -/
def sampleHookStore : Store :=
  pushToolCallId "s" "tc-1" (setWriter "s" (some "msg-001") emptyStore)

/-- A store with a bound writer and `get_weather` marked client-executed. -/
def sampleClientStore : Store :=
  markClientToolNames "s" ["get_weather"] (setWriter "s" (some "msg-001") emptyStore)

/-- The dispatcher state of a run in which a client tool has already been
called (the suppression flag is set for session `s`). -/
def sampleFlagState : RunState :=
  { sampleInit with store := setClientToolCalled "s" emptyStore }

/-- `sampleFlagState` after a text message has already been opened. -/
def sampleStartedFlagState : RunState :=
  { sampleFlagState with messageStarted := true }

section Lemmas

@[simp]
lemma writeEvent_store (fails : Nat → Bool) (s : RunState) (e : Event) :
    (writeEvent fails s e).store = s.store := by
  unfold writeEvent; split_ifs <;> rfl

@[simp]
lemma writeEvent_messageStarted (fails : Nat → Bool) (s : RunState) (e : Event) :
    (writeEvent fails s e).messageStarted = s.messageStarted := by
  unfold writeEvent; split_ifs <;> rfl

@[simp]
lemma writeEvent_nextId (fails : Nat → Bool) (s : RunState) (e : Event) :
    (writeEvent fails s e).nextId = s.nextId := by
  unfold writeEvent; split_ifs <;> rfl

@[simp]
lemma writeEvent_ended (fails : Nat → Bool) (s : RunState) (e : Event) :
    (writeEvent fails s e).ended = s.ended := by
  unfold writeEvent; split_ifs <;> rfl

lemma writeEvent_of_closed (fails : Nat → Bool) (s : RunState) (e : Event)
    (h : s.closed = true) : writeEvent fails s e = s := by
  unfold writeEvent; simp [h]

lemma writeEvent_out_cases (fails : Nat → Bool) (s : RunState) (e : Event) :
    (writeEvent fails s e).out = s.out ∨ (writeEvent fails s e).out = s.out ++ [e] := by
  unfold writeEvent; split_ifs <;> simp

lemma writeEvent_closed_mono (fails : Nat → Bool) (s : RunState) (e : Event)
    (h : s.closed = true) : (writeEvent fails s e).closed = true := by
  rw [writeEvent_of_closed fails s e h]; exact h

lemma writeEvent_noFail_open (s : RunState) (e : Event) (h : s.closed = false) :
    writeEvent noFail s e =
      { s with out := s.out ++ [e], attempts := s.attempts + 1 } := by
  unfold writeEvent noFail; split_ifs <;> simp_all

@[simp]
lemma writeEvent_noFail_closed_eq (s : RunState) (e : Event) :
    (writeEvent noFail s e).closed = s.closed := by
  unfold writeEvent noFail; split_ifs <;> simp_all

lemma writeEvents_of_closed (fails : Nat → Bool) (es : List Event) (s : RunState)
    (h : s.closed = true) : writeEvents fails s es = s := by
  induction es with
  | nil => rfl
  | cons e es ih =>
      show writeEvents fails (writeEvent fails s e) es = s
      rw [writeEvent_of_closed fails s e h]; exact ih

lemma writeEvents_out_exists (fails : Nat → Bool) (es : List Event) :
    ∀ s : RunState, ∃ es', (writeEvents fails s es).out = s.out ++ es' ∧
      ∀ e ∈ es', e ∈ es := by
  induction es with
  | nil => intro s; exact ⟨[], by simp [writeEvents], by intro e h; cases h⟩
  | cons e es ih =>
      intro s
      obtain ⟨es', h1, h2⟩ := ih (writeEvent fails s e)
      rcases writeEvent_out_cases fails s e with hc | hc
      · refine ⟨es', ?_, ?_⟩
        · show (writeEvents fails (writeEvent fails s e) es).out = s.out ++ es'
          rw [h1, hc]
        · intro x hx; exact List.mem_cons_of_mem e (h2 x hx)
      · refine ⟨e :: es', ?_, ?_⟩
        · show (writeEvents fails (writeEvent fails s e) es).out = s.out ++ (e :: es')
          rw [h1, hc]; simp
        · intro x hx
          rcases List.mem_cons.mp hx with rfl | hx'
          · exact List.mem_cons_self x es
          · exact List.mem_cons_of_mem e (h2 x hx')

@[simp]
lemma writeEvents_store (fails : Nat → Bool) (es : List Event) :
    ∀ s : RunState, (writeEvents fails s es).store = s.store := by
  induction es with
  | nil => intro s; rfl
  | cons e es ih =>
      intro s
      show (writeEvents fails (writeEvent fails s e) es).store = s.store
      rw [ih, writeEvent_store]

@[simp]
lemma writeEvents_messageStarted (fails : Nat → Bool) (es : List Event) :
    ∀ s : RunState, (writeEvents fails s es).messageStarted = s.messageStarted := by
  induction es with
  | nil => intro s; rfl
  | cons e es ih =>
      intro s
      show (writeEvents fails (writeEvent fails s e) es).messageStarted = s.messageStarted
      rw [ih, writeEvent_messageStarted]

lemma writeEvents_closed_mono (fails : Nat → Bool) (es : List Event) (s : RunState)
    (h : s.closed = true) : (writeEvents fails s es).closed = true := by
  rw [writeEvents_of_closed fails es s h]; exact h

@[simp]
lemma writeEvents_noFail_closed_eq (es : List Event) :
    ∀ s : RunState, (writeEvents noFail s es).closed = s.closed := by
  induction es with
  | nil => intro s; rfl
  | cons e es ih =>
      intro s
      show (writeEvents noFail (writeEvent noFail s e) es).closed = s.closed
      rw [ih, writeEvent_noFail_closed_eq]

lemma writeEvents_noFail_open (es : List Event) :
    ∀ s : RunState, s.closed = false →
      (writeEvents noFail s es).out = s.out ++ es := by
  induction es with
  | nil => intro s _; simp [writeEvents]
  | cons e es ih =>
      intro s h
      show (writeEvents noFail (writeEvent noFail s e) es).out = s.out ++ (e :: es)
      rw [ih (writeEvent noFail s e) (by rw [writeEvent_noFail_closed_eq]; exact h),
        writeEvent_noFail_open s e h]
      simp

end Lemmas

section StepLemmas

lemma sendBlockReply_of_closed (fails : Nat → Bool) (rc : RunCtx) (p : Option String)
    (s : RunState) (h : s.closed = true) : sendBlockReply fails rc p s = s := by
  unfold sendBlockReply; simp [h]

lemma sendBlockReply_of_flag (fails : Nat → Bool) (rc : RunCtx) (p : Option String)
    (s : RunState) (h : wasClientToolCalled s.store rc.sk = true) :
    sendBlockReply fails rc p s = s := by
  unfold sendBlockReply; simp [h]

lemma sendFinalReply_of_closed (fails : Nat → Bool) (rc : RunCtx) (p : Option String)
    (s : RunState) (h : s.closed = true) : sendFinalReply fails rc p s = s := by
  unfold sendFinalReply; simp [h]

lemma sendBlockReply_store (fails : Nat → Bool) (rc : RunCtx) (p : Option String)
    (s : RunState) : (sendBlockReply fails rc p s).store = s.store := by
  simp [sendBlockReply, apply_ite RunState.store]

lemma sendFinalReply_store (fails : Nat → Bool) (rc : RunCtx) (p : Option String)
    (s : RunState) : (sendFinalReply fails rc p s).store = s.store := by
  simp [sendFinalReply, apply_ite RunState.store]

lemma sendFinalReply_closed_true (fails : Nat → Bool) (rc : RunCtx) (p : Option String)
    (s : RunState) (h : s.closed = false) :
    (sendFinalReply fails rc p s).closed = true := by
  unfold sendFinalReply; simp [h]

lemma closeNormal_of_closed (fails : Nat → Bool) (rc : RunCtx) (s : RunState)
    (h : s.closed = true) : closeNormal fails rc s = s := by
  unfold closeNormal; simp [h]

lemma closeError_of_closed (fails : Nat → Bool) (rc : RunCtx) (msg : String) (s : RunState)
    (h : s.closed = true) : closeError fails rc msg s = s := by
  unfold closeError; simp [h]

lemma writeEvents_outClosed_of_closed (fails : Nat → Bool) (es : List Event) (s : RunState)
    (h : s.closed = true) :
    (writeEvents fails s es).out = s.out ∧ (writeEvents fails s es).closed = true := by
  rw [writeEvents_of_closed fails es s h]; exact ⟨rfl, h⟩

lemma runStep_of_closed (fails : Nat → Bool) (rc : RunCtx) (s : RunState) (a : Act)
    (h : s.closed = true) :
    (runStep fails rc s a).out = s.out ∧ (runStep fails rc s a).closed = true := by
  cases a with
  | block p => rw [show runStep fails rc s (Act.block p) = sendBlockReply fails rc p s from rfl,
      sendBlockReply_of_closed fails rc p s h]; exact ⟨rfl, h⟩
  | final p => rw [show runStep fails rc s (Act.final p) = sendFinalReply fails rc p s from rfl,
      sendFinalReply_of_closed fails rc p s h]; exact ⟨rfl, h⟩
  | toolResult p => exact ⟨rfl, h⟩
  | beforeTool n ps =>
      refine writeEvents_outClosed_of_closed fails _ _ ?_; exact h
  | afterTool =>
      refine writeEvents_outClosed_of_closed fails _ _ ?_; exact h
  | disconnect => exact ⟨rfl, rfl⟩

lemma runSteps_of_closed (fails : Nat → Bool) (rc : RunCtx) :
    ∀ (acts : List Act) (s : RunState), s.closed = true →
      (runSteps fails rc s acts).out = s.out ∧ (runSteps fails rc s acts).closed = true := by
  intro acts
  induction acts with
  | nil => intro s h; exact ⟨rfl, h⟩
  | cons a rest ih =>
      intro s h
      obtain ⟨h1, h2⟩ := runStep_of_closed fails rc s a h
      obtain ⟨h3, h4⟩ := ih (runStep fails rc s a) h2
      exact ⟨h3.trans h1, h4⟩

lemma runRest_of_closed (fails : Nat → Bool) (rc : RunCtx) (s : RunState)
    (acts : List Act) (throws : Option String) (h : s.closed = true) :
    (runRest fails rc s acts throws).out = s.out := by
  obtain ⟨h1, h2⟩ := runSteps_of_closed fails rc acts s h
  unfold runRest
  cases throws with
  | none => simp only [closeNormal_of_closed fails rc _ h2]; exact h1
  | some msg => simp only [closeError_of_closed fails rc msg _ h2]; exact h1

end StepLemmas

section HookLemmas

lemma isClientTool_setToolFiredInRun (sk k n : String) (σ : Store) :
    isClientTool (setToolFiredInRun sk σ) k n = isClientTool σ k n := rfl

lemma handleBeforeToolCall_no_writer (n : String) (p : Option (List (String × String)))
    (sk gid : String) (σ : Store) (hw : getWriter σ sk = false) :
    handleBeforeToolCall n p (some sk) gid σ = (σ, []) := by
  unfold handleBeforeToolCall; simp [hw]

lemma handleBeforeToolCall_client (n : String) (p : Option (List (String × String)))
    (sk gid : String) (σ : Store) (hw : getWriter σ sk = true)
    (hc : isClientTool σ sk n = true) :
    handleBeforeToolCall n p (some sk) gid σ =
      (setClientToolCalled sk (setToolFiredInRun sk σ),
       Event.toolCallStart gid n :: argsEvents gid p ++ [Event.toolCallEnd gid]) := by
  unfold handleBeforeToolCall
  simp [hw, isClientTool_setToolFiredInRun, hc]

lemma handleBeforeToolCall_server (n : String) (p : Option (List (String × String)))
    (sk gid : String) (σ : Store) (hw : getWriter σ sk = true)
    (hc : isClientTool σ sk n = false) :
    handleBeforeToolCall n p (some sk) gid σ =
      (pushToolCallId sk gid (setToolFiredInRun sk σ),
       Event.toolCallStart gid n :: argsEvents gid p) := by
  unfold handleBeforeToolCall
  simp [hw, isClientTool_setToolFiredInRun, hc]

lemma getMessageId_popToolCallId (sk k : String) (σ : Store) :
    getMessageId (popToolCallId sk σ).2 k = getMessageId σ k := by
  unfold popToolCallId
  rcases (σ.pendingStacks sk).getLast? with _ | id <;> rfl

lemma handleToolResultPersist_spec (sk : String) (σ : Store) :
    (handleToolResultPersist (some sk) σ).1 = (popToolCallId sk σ).2 ∧
    (handleToolResultPersist (some sk) σ).2 =
      (match getWriter σ sk, (σ.pendingStacks sk).getLast?, getMessageId σ sk with
       | true, some tid, some mid =>
           [Event.toolCallResult tid mid "", Event.toolCallEnd tid]
       | _, _, _ => []) := by
  rcases hw : σ.writerStore sk <;>
    rcases hp : (σ.pendingStacks sk).getLast? with _ | tid <;>
      rcases hm : σ.messageIdStore sk with _ | mid <;>
        simp [handleToolResultPersist, popToolCallId, getMessageId, getWriter, hw, hp, hm]

lemma popToolCallId_pendingStacks (sk : String) (σ : Store) :
    (popToolCallId sk σ).2.pendingStacks sk = (σ.pendingStacks sk).dropLast := by
  unfold popToolCallId
  rcases h : (σ.pendingStacks sk).getLast? with _ | id
  · have : σ.pendingStacks sk = [] := by
      cases hl : σ.pendingStacks sk with
      | nil => rfl
      | cons x xs => rw [hl] at h; simp [List.getLast?_concat] at h <;> cases h
    simp [this]
  · simp [upd]

lemma argsEvents_shape (gid : String) (p : Option (List (String × String))) :
    ∀ e ∈ argsEvents gid p, isTextStartOrContent e = false ∧ isTerminal e = false := by
  intro e he
  cases p with
  | none => cases he
  | some ps =>
      simp only [argsEvents] at he
      split_ifs at he
      · rcases List.mem_singleton.mp he with rfl; exact ⟨rfl, rfl⟩
      · cases he

lemma handleBeforeToolCall_events_shape (n : String) (p : Option (List (String × String)))
    (skOpt : Option String) (gid : String) (σ : Store) :
    ∀ e ∈ (handleBeforeToolCall n p skOpt gid σ).2,
      isTextStartOrContent e = false ∧ isTerminal e = false := by
  intro e he
  cases skOpt with
  | none => cases he
  | some sk =>
      rcases hw : getWriter σ sk
      · rw [handleBeforeToolCall_no_writer n p sk gid σ hw] at he; cases he
      · rcases hc : isClientTool σ sk n
        · rw [handleBeforeToolCall_server n p sk gid σ hw hc] at he
          rcases List.mem_cons.mp he with rfl | h2
          · exact ⟨rfl, rfl⟩
          · exact argsEvents_shape gid p e h2
        · rw [handleBeforeToolCall_client n p sk gid σ hw hc] at he
          rcases List.mem_cons.mp he with rfl | h2
          · exact ⟨rfl, rfl⟩
          · rcases List.mem_append.mp h2 with h3 | h3
            · exact argsEvents_shape gid p e h3
            · rcases List.mem_singleton.mp h3 with rfl; exact ⟨rfl, rfl⟩

lemma handleToolResultPersist_events_shape (skOpt : Option String) (σ : Store) :
    ∀ e ∈ (handleToolResultPersist skOpt σ).2,
      isTextStartOrContent e = false ∧ isTerminal e = false := by
  intro e he
  cases skOpt with
  | none => cases he
  | some sk =>
      rw [(handleToolResultPersist_spec sk σ).2] at he
      rcases hw : getWriter σ sk <;>
        rcases hp : (σ.pendingStacks sk).getLast? with _ | tid <;>
          rcases hm : getMessageId σ sk with _ | mid <;>
            rw [hw, hp, hm] at he <;> simp at he <;>
              rcases he with rfl | rfl <;> exact ⟨rfl, rfl⟩

lemma wasClientToolCalled_beforeHook_mono (n : String) (p : Option (List (String × String)))
    (skOpt : Option String) (gid k : String) (σ : Store)
    (h : wasClientToolCalled σ k = true) :
    wasClientToolCalled (handleBeforeToolCall n p skOpt gid σ).1 k = true := by
  cases skOpt with
  | none => exact h
  | some sk =>
      rcases hw : getWriter σ sk
      · rw [handleBeforeToolCall_no_writer n p sk gid σ hw]; exact h
      · rcases hc : isClientTool σ sk n
        · rw [handleBeforeToolCall_server n p sk gid σ hw hc]; exact h
        · rw [handleBeforeToolCall_client n p sk gid σ hw hc]
          show (if k = sk then true else σ.clientToolCalledFlags k) = true
          split_ifs with hk
          · rfl
          · exact h

lemma wasClientToolCalled_persistHook (skOpt : Option String) (k : String) (σ : Store) :
    wasClientToolCalled (handleToolResultPersist skOpt σ).1 k = wasClientToolCalled σ k := by
  cases skOpt with
  | none => rfl
  | some sk =>
      rw [(handleToolResultPersist_spec sk σ).1]
      unfold popToolCallId
      rcases (σ.pendingStacks sk).getLast? with _ | id <;> rfl

end HookLemmas

section BranchLemmas

lemma writeEvent_out_sub (fails : Nat → Bool) (s : RunState) (e : Event) :
    ∃ es, (writeEvent fails s e).out = s.out ++ es ∧ ∀ x ∈ es, x = e := by
  rcases writeEvent_out_cases fails s e with hc | hc
  · exact ⟨[], by simp [hc], by intro x hx; cases hx⟩
  · exact ⟨[e], by simp [hc], by intro x hx; exact List.mem_singleton.mp hx⟩

lemma writeEvent2_out_sub (fails : Nat → Bool) (s : RunState) (e1 e2 : Event) :
    ∃ es, (writeEvent fails (writeEvent fails s e1) e2).out = s.out ++ es ∧
      ∀ x ∈ es, x = e1 ∨ x = e2 := by
  obtain ⟨es1, h1, he1⟩ := writeEvent_out_sub fails s e1
  obtain ⟨es2, h2, he2⟩ := writeEvent_out_sub fails (writeEvent fails s e1) e2
  refine ⟨es1 ++ es2, ?_, ?_⟩
  · rw [h2, h1, List.append_assoc]
  · intro x hx
    rcases List.mem_append.mp hx with hx' | hx'
    · exact Or.inl (he1 x hx')
    · exact Or.inr (he2 x hx')

lemma sendBlockReply_noFail_char (rc : RunCtx) (p : Option String) (s : RunState)
    (h : s.closed = false) :
    (sendBlockReply noFail rc p s).closed = false ∧
    ∃ es, (sendBlockReply noFail rc p s).out = s.out ++ es ∧
      ∀ e ∈ es, isTerminal e = false := by
  by_cases hf : wasClientToolCalled s.store rc.sk = true
  · refine ⟨?_, [], ?_, ?_⟩ <;> simp [sendBlockReply, h, hf]
  · by_cases ht : (p.getD "").trim = ""
    · refine ⟨?_, [], ?_, ?_⟩ <;> simp [sendBlockReply, h, hf, ht]
    · by_cases hm : s.messageStarted = true
      · refine ⟨?_, [Event.textMessageContent rc.messageId ((p.getD "").trim)], ?_, ?_⟩ <;>
          simp [sendBlockReply, h, hf, ht, hm, writeEvent_noFail_open, isTerminal]
      · refine ⟨?_, [Event.textMessageStart rc.messageId,
            Event.textMessageContent rc.messageId ((p.getD "").trim)], ?_, ?_⟩ <;>
          simp [sendBlockReply, h, hf, ht, hm, writeEvent_noFail_open, isTerminal]

lemma sendFinalReply_noFail_char (rc : RunCtx) (p : Option String) (s : RunState)
    (h : s.closed = false) :
    (sendFinalReply noFail rc p s).closed = true ∧
    ∃ es, (sendFinalReply noFail rc p s).out =
        s.out ++ es ++ [Event.runFinished rc.threadId rc.runId] ∧
      ∀ e ∈ es, isTerminal e = false := by
  refine ⟨sendFinalReply_closed_true noFail rc p s h, ?_⟩
  by_cases hf : wasClientToolCalled s.store rc.sk = true
  · by_cases hm : s.messageStarted = true
    · refine ⟨[Event.textMessageEnd rc.messageId], ?_, ?_⟩ <;>
        simp [sendFinalReply, hf, hm, h, writeEvent_noFail_open, isTerminal]
    · refine ⟨[], ?_, ?_⟩ <;>
        simp [sendFinalReply, hf, hm, h, writeEvent_noFail_open, isTerminal]
  · by_cases ht : (p.getD "").trim = ""
    · by_cases hm : s.messageStarted = true
      · refine ⟨[Event.textMessageEnd rc.messageId], ?_, ?_⟩ <;>
          simp [sendFinalReply, hf, ht, hm, h, writeEvent_noFail_open, isTerminal]
      · refine ⟨[], ?_, ?_⟩ <;>
          simp [sendFinalReply, hf, ht, hm, h, writeEvent_noFail_open, isTerminal]
    · by_cases hm : s.messageStarted = true
      · refine ⟨[Event.textMessageContent rc.messageId ((p.getD "").trim),
            Event.textMessageEnd rc.messageId], ?_, ?_⟩ <;>
          simp [sendFinalReply, hf, ht, hm, h, writeEvent_noFail_open, isTerminal]
      · refine ⟨[Event.textMessageStart rc.messageId,
            Event.textMessageContent rc.messageId ((p.getD "").trim),
            Event.textMessageEnd rc.messageId], ?_, ?_⟩ <;>
          simp [sendFinalReply, hf, ht, hm, h, writeEvent_noFail_open, isTerminal]

lemma closeNormal_noFail_char (rc : RunCtx) (s : RunState) (h : s.closed = false) :
    (closeNormal noFail rc s).closed = true ∧
    ∃ es, (closeNormal noFail rc s).out =
        s.out ++ es ++ [Event.runFinished rc.threadId rc.runId] ∧
      ∀ e ∈ es, isTerminal e = false := by
  by_cases hm : s.messageStarted = true
  · refine ⟨?_, [Event.textMessageEnd rc.messageId], ?_, ?_⟩ <;>
      simp [closeNormal, hm, h, writeEvent_noFail_open, isTerminal]
  · refine ⟨?_, [], ?_, ?_⟩ <;>
      simp [closeNormal, hm, h, writeEvent_noFail_open, isTerminal]

lemma closeError_noFail_char (rc : RunCtx) (msg : String) (s : RunState)
    (h : s.closed = false) :
    (closeError noFail rc msg s).closed = true ∧
    (closeError noFail rc msg s).out = s.out ++ [Event.runError msg] := by
  constructor <;> simp [closeError, h, writeEvent_noFail_open]

lemma sendFinalReply_flag_out (fails : Nat → Bool) (rc : RunCtx) (p : Option String)
    (s : RunState) (h : wasClientToolCalled s.store rc.sk = true) :
    ∃ es, (sendFinalReply fails rc p s).out = s.out ++ es ∧
      ∀ e ∈ es, isTextStartOrContent e = false := by
  by_cases hcl : s.closed = true
  · exact ⟨[], by simp [sendFinalReply, hcl], by intro e he; cases he⟩
  · by_cases hm : s.messageStarted = true
    · obtain ⟨es, hout, hmem⟩ := writeEvent2_out_sub fails s
        (Event.textMessageEnd rc.messageId) (Event.runFinished rc.threadId rc.runId)
      have hcl' : s.closed = false := by simpa using hcl
      refine ⟨es, ?_, ?_⟩
      · simpa [sendFinalReply, hcl', h, hm] using hout
      · intro e he
        rcases hmem e he with rfl | rfl <;> rfl
    · obtain ⟨es, hout, hmem⟩ := writeEvent_out_sub fails s
        (Event.runFinished rc.threadId rc.runId)
      have hcl' : s.closed = false := by simpa using hcl
      refine ⟨es, ?_, ?_⟩
      · simpa [sendFinalReply, hcl', h, hm] using hout
      · intro e he
        rcases hmem e he with rfl <;> rfl

lemma closeNormal_out_sub (fails : Nat → Bool) (rc : RunCtx) (s : RunState) :
    ∃ es, (closeNormal fails rc s).out = s.out ++ es ∧
      ∀ e ∈ es, e = Event.textMessageEnd rc.messageId ∨
        e = Event.runFinished rc.threadId rc.runId := by
  by_cases hcl : s.closed = true
  · exact ⟨[], by simp [closeNormal, hcl], by intro e he; cases he⟩
  · have hcl' : s.closed = false := by simpa using hcl
    by_cases hm : s.messageStarted = true
    · obtain ⟨es, hout, hmem⟩ := writeEvent2_out_sub fails s
        (Event.textMessageEnd rc.messageId) (Event.runFinished rc.threadId rc.runId)
      refine ⟨es, ?_, hmem⟩
      simpa [closeNormal, hcl', hm] using hout
    · obtain ⟨es, hout, hmem⟩ := writeEvent_out_sub fails s
        (Event.runFinished rc.threadId rc.runId)
      refine ⟨es, ?_, ?_⟩
      · simpa [closeNormal, hcl', hm] using hout
      · intro e he; exact Or.inr (hmem e he)

lemma closeError_out_sub (fails : Nat → Bool) (rc : RunCtx) (msg : String) (s : RunState) :
    ∃ es, (closeError fails rc msg s).out = s.out ++ es ∧
      ∀ e ∈ es, e = Event.runError msg := by
  by_cases hcl : s.closed = true
  · exact ⟨[], by simp [closeError, hcl], by intro e he; cases he⟩
  · have hcl' : s.closed = false := by simpa using hcl
    obtain ⟨es, hout, hmem⟩ := writeEvent_out_sub fails s (Event.runError msg)
    refine ⟨es, ?_, hmem⟩
    simpa [closeError, hcl'] using hout

end BranchLemmas

section RunLemmas

lemma head_append_of_head {α : Type} {l l2 : List α} {x : α} (h : l.head? = some x) :
    (l ++ l2).head? = some x := by
  cases l with
  | nil => cases h
  | cons a t => simpa using h

lemma filter_isTerminal_nil (es : List Event) (h : ∀ e ∈ es, isTerminal e = false) :
    es.filter isTerminal = [] := by
  rw [List.filter_eq_nil_iff]
  intro a ha
  simp [h a ha]

lemma runStep_flag_mono (fails : Nat → Bool) (rc : RunCtx) (s : RunState) (a : Act)
    (h : wasClientToolCalled s.store rc.sk = true) :
    wasClientToolCalled (runStep fails rc s a).store rc.sk = true := by
  cases a with
  | block p =>
      show wasClientToolCalled (sendBlockReply fails rc p s).store rc.sk = true
      rw [sendBlockReply_store]; exact h
  | final p =>
      show wasClientToolCalled (sendFinalReply fails rc p s).store rc.sk = true
      rw [sendFinalReply_store]; exact h
  | toolResult p => exact h
  | beforeTool n ps =>
      show wasClientToolCalled (writeEvents fails _ _).store rc.sk = true
      rw [writeEvents_store]
      exact wasClientToolCalled_beforeHook_mono n ps (some rc.sk) _ rc.sk s.store h
  | afterTool =>
      show wasClientToolCalled (writeEvents fails _ _).store rc.sk = true
      rw [writeEvents_store]
      rw [wasClientToolCalled_persistHook (some rc.sk) rc.sk s.store]
      exact h
  | disconnect => exact h

lemma runStep_flag_noText (fails : Nat → Bool) (rc : RunCtx) (s : RunState) (a : Act)
    (h : wasClientToolCalled s.store rc.sk = true) :
    ∃ es, (runStep fails rc s a).out = s.out ++ es ∧
      ∀ e ∈ es, isTextStartOrContent e = false := by
  cases a with
  | block p =>
      refine ⟨[], ?_, ?_⟩
      · show (sendBlockReply fails rc p s).out = s.out ++ []
        rw [sendBlockReply_of_flag fails rc p s h]; simp
      · intro e he; cases he
  | final p => exact sendFinalReply_flag_out fails rc p s h
  | toolResult p => exact ⟨[], by simp [runStep], by intro e he; cases he⟩
  | beforeTool n ps =>
      obtain ⟨es, hout, hmem⟩ := writeEvents_out_exists fails
        (handleBeforeToolCall n ps (some rc.sk) ("tool-" ++ toString s.nextId) s.store).2
        { s with store := (handleBeforeToolCall n ps (some rc.sk)
            ("tool-" ++ toString s.nextId) s.store).1, nextId := s.nextId + 1 }
      refine ⟨es, hout, ?_⟩
      intro e he
      exact (handleBeforeToolCall_events_shape n ps (some rc.sk) _ s.store e (hmem e he)).1
  | afterTool =>
      obtain ⟨es, hout, hmem⟩ := writeEvents_out_exists fails
        (handleToolResultPersist (some rc.sk) s.store).2
        { s with store := (handleToolResultPersist (some rc.sk) s.store).1 }
      refine ⟨es, hout, ?_⟩
      intro e he
      exact (handleToolResultPersist_events_shape (some rc.sk) s.store e (hmem e he)).1
  | disconnect => exact ⟨[], by simp [runStep], by intro e he; cases he⟩

lemma runStep_noFail_char (rc : RunCtx) (s : RunState) (a : Act)
    (h : s.closed = false) (hd : a ≠ Act.disconnect) :
    ((runStep noFail rc s a).closed = false ∧
      ∃ es, (runStep noFail rc s a).out = s.out ++ es ∧
        ∀ e ∈ es, isTerminal e = false) ∨
    ((runStep noFail rc s a).closed = true ∧
      ∃ es, (runStep noFail rc s a).out =
          s.out ++ es ++ [Event.runFinished rc.threadId rc.runId] ∧
        ∀ e ∈ es, isTerminal e = false) := by
  cases a with
  | block p =>
      obtain ⟨hc, es, hout, hterm⟩ := sendBlockReply_noFail_char rc p s h
      exact Or.inl ⟨hc, es, hout, hterm⟩
  | final p =>
      obtain ⟨hc, es, hout, hterm⟩ := sendFinalReply_noFail_char rc p s h
      exact Or.inr ⟨hc, es, hout, hterm⟩
  | toolResult p => exact Or.inl ⟨h, [], by simp [runStep], by intro e he; cases he⟩
  | beforeTool n ps =>
      refine Or.inl ⟨?_, ?_⟩
      · show (writeEvents noFail _ _).closed = false
        rw [writeEvents_noFail_closed_eq]; exact h
      · obtain ⟨es, hout, hmem⟩ := writeEvents_out_exists noFail
          (handleBeforeToolCall n ps (some rc.sk) ("tool-" ++ toString s.nextId) s.store).2
          { s with store := (handleBeforeToolCall n ps (some rc.sk)
              ("tool-" ++ toString s.nextId) s.store).1, nextId := s.nextId + 1 }
        refine ⟨es, hout, ?_⟩
        intro e he
        exact (handleBeforeToolCall_events_shape n ps (some rc.sk) _ s.store e (hmem e he)).2
  | afterTool =>
      refine Or.inl ⟨?_, ?_⟩
      · show (writeEvents noFail _ _).closed = false
        rw [writeEvents_noFail_closed_eq]; exact h
      · obtain ⟨es, hout, hmem⟩ := writeEvents_out_exists noFail
          (handleToolResultPersist (some rc.sk) s.store).2
          { s with store := (handleToolResultPersist (some rc.sk) s.store).1 }
        refine ⟨es, hout, ?_⟩
        intro e he
        exact (handleToolResultPersist_events_shape (some rc.sk) s.store e (hmem e he)).2
  | disconnect => exact absurd rfl hd

lemma runSteps_noFail_inv (rc : RunCtx) :
    ∀ (acts : List Act) (s : RunState), Act.disconnect ∉ acts →
      s.out.head? = some (Event.runStarted rc.threadId rc.runId) →
      (s.closed = false ∧ s.out.filter isTerminal = [] ∨
       s.closed = true ∧ ∃ pre, s.out = pre ++ [Event.runFinished rc.threadId rc.runId] ∧
         pre.filter isTerminal = []) →
      ((runSteps noFail rc s acts).out.head? =
          some (Event.runStarted rc.threadId rc.runId) ∧
       ((runSteps noFail rc s acts).closed = false ∧
          (runSteps noFail rc s acts).out.filter isTerminal = [] ∨
        (runSteps noFail rc s acts).closed = true ∧
          ∃ pre, (runSteps noFail rc s acts).out =
              pre ++ [Event.runFinished rc.threadId rc.runId] ∧
            pre.filter isTerminal = [])) := by
  intro acts
  induction acts with
  | nil => intro s _ hhead hinv; exact ⟨hhead, hinv⟩
  | cons a rest ih =>
      intro s hd hhead hinv
      have hne : a ≠ Act.disconnect := fun hc => hd (hc ▸ List.mem_cons_self a rest)
      have hd' : Act.disconnect ∉ rest := fun hc => hd (List.mem_cons_of_mem a hc)
      rcases hinv with ⟨hcl, hfil⟩ | ⟨hcl, pre, hpre, hfil⟩
      · rcases runStep_noFail_char rc s a hcl hne with
          ⟨hc', es, hout, hterm⟩ | ⟨hc', es, hout, hterm⟩
        · refine ih (runStep noFail rc s a) hd' ?_ (Or.inl ⟨hc', ?_⟩)
          · rw [hout]; exact head_append_of_head hhead
          · rw [hout, List.filter_append, hfil, filter_isTerminal_nil es hterm]; rfl
        · refine ih (runStep noFail rc s a) hd' ?_ (Or.inr ⟨hc', s.out ++ es, ?_, ?_⟩)
          · rw [hout]
            exact head_append_of_head (head_append_of_head hhead)
          · exact hout
          · rw [List.filter_append, hfil, filter_isTerminal_nil es hterm]; rfl
      · obtain ⟨hout, hc'⟩ := runStep_of_closed noFail rc s a hcl
        refine ih (runStep noFail rc s a) hd' ?_ (Or.inr ⟨hc', pre, ?_, hfil⟩)
        · rw [hout]; exact hhead
        · rw [hout]; exact hpre

end RunLemmas

section TopLemmas

lemma runSteps_flag_noText (fails : Nat → Bool) (rc : RunCtx) :
    ∀ (acts : List Act) (s : RunState),
      wasClientToolCalled s.store rc.sk = true →
      ∃ es, (runSteps fails rc s acts).out = s.out ++ es ∧
        (∀ e ∈ es, isTextStartOrContent e = false) ∧
        wasClientToolCalled (runSteps fails rc s acts).store rc.sk = true := by
  intro acts
  induction acts with
  | nil => intro s h; exact ⟨[], by simp [runSteps], fun e he => absurd he (List.not_mem_nil e), h⟩
  | cons a rest ih =>
      intro s h
      obtain ⟨es1, h1, hm1⟩ := runStep_flag_noText fails rc s a h
      obtain ⟨es2, h2, hm2, hf2⟩ := ih (runStep fails rc s a) (runStep_flag_mono fails rc s a h)
      refine ⟨es1 ++ es2, ?_, ?_, hf2⟩
      · show (runSteps fails rc (runStep fails rc s a) rest).out = s.out ++ (es1 ++ es2)
        rw [h2, h1, List.append_assoc]
      · intro e he
        rcases List.mem_append.mp he with he' | he'
        · exact hm1 e he'
        · exact hm2 e he'

lemma runRest_noFail_envelope (rc : RunCtx) (s : RunState) (acts : List Act)
    (throws : Option String) (hd : Act.disconnect ∉ acts)
    (hhead : s.out.head? = some (Event.runStarted rc.threadId rc.runId))
    (hcl : s.closed = false) (hfil : s.out.filter isTerminal = []) :
    (runRest noFail rc s acts throws).out.head? =
        some (Event.runStarted rc.threadId rc.runId) ∧
    ∃ pre t, (runRest noFail rc s acts throws).out = pre ++ [t] ∧
      isTerminal t = true ∧
      (runRest noFail rc s acts throws).out.filter isTerminal = [t] ∧
      (throws = none → t = Event.runFinished rc.threadId rc.runId) := by
  obtain ⟨hhead3, hinv3⟩ := runSteps_noFail_inv rc acts s hd hhead (Or.inl ⟨hcl, hfil⟩)
  cases throws with
  | none =>
      rcases hinv3 with ⟨hc3, hfil3⟩ | ⟨hc3, pre, hpre, hfilp⟩
      · obtain ⟨hc4, es, hout4, hterm⟩ := closeNormal_noFail_char rc _ hc3
        constructor
        · show (closeNormal noFail rc (runSteps noFail rc s acts)).out.head? = _
          rw [hout4]
          exact head_append_of_head (head_append_of_head hhead3)
        · refine ⟨(runSteps noFail rc s acts).out ++ es,
            Event.runFinished rc.threadId rc.runId, ?_, rfl, ?_, fun _ => rfl⟩
          · show (closeNormal noFail rc (runSteps noFail rc s acts)).out = _
            rw [hout4]
          · show ((closeNormal noFail rc (runSteps noFail rc s acts)).out.filter isTerminal) = _
            rw [hout4, List.filter_append, List.filter_append, hfil3,
              filter_isTerminal_nil es hterm]
            rfl
      · have h4 : closeNormal noFail rc (runSteps noFail rc s acts) =
            runSteps noFail rc s acts := closeNormal_of_closed noFail rc _ hc3
        constructor
        · show (closeNormal noFail rc (runSteps noFail rc s acts)).out.head? = _
          rw [h4]; exact hhead3
        · refine ⟨pre, Event.runFinished rc.threadId rc.runId, ?_, rfl, ?_, fun _ => rfl⟩
          · show (closeNormal noFail rc (runSteps noFail rc s acts)).out = _
            rw [h4]; exact hpre
          · show ((closeNormal noFail rc (runSteps noFail rc s acts)).out.filter isTerminal) = _
            rw [h4, hpre, List.filter_append, hfilp]
            rfl
  | some msg =>
      rcases hinv3 with ⟨hc3, hfil3⟩ | ⟨hc3, pre, hpre, hfilp⟩
      · obtain ⟨hc4, hout4⟩ := closeError_noFail_char rc msg _ hc3
        constructor
        · show (closeError noFail rc msg (runSteps noFail rc s acts)).out.head? = _
          rw [hout4]
          exact head_append_of_head hhead3
        · refine ⟨(runSteps noFail rc s acts).out, Event.runError msg, ?_, rfl, ?_,
            fun hc => (Option.some_ne_none msg hc).elim⟩
          · show (closeError noFail rc msg (runSteps noFail rc s acts)).out = _
            rw [hout4]
          · show ((closeError noFail rc msg (runSteps noFail rc s acts)).out.filter isTerminal) = _
            rw [hout4, List.filter_append, hfil3]
            rfl
      · have h4 : closeError noFail rc msg (runSteps noFail rc s acts) =
            runSteps noFail rc s acts := closeError_of_closed noFail rc msg _ hc3
        constructor
        · show (closeError noFail rc msg (runSteps noFail rc s acts)).out.head? = _
          rw [h4]; exact hhead3
        · refine ⟨pre, Event.runFinished rc.threadId rc.runId, ?_, rfl, ?_,
            fun hc => (Option.some_ne_none msg hc).elim⟩
          · show (closeError noFail rc msg (runSteps noFail rc s acts)).out = _
            rw [h4]; exact hpre
          · show ((closeError noFail rc msg (runSteps noFail rc s acts)).out.filter isTerminal) = _
            rw [h4, hpre, List.filter_append, hfilp]
            rfl

end TopLemmas

section HookClaims

lemma argsEvents_no_end (gid : String) (p : Option (List (String × String))) :
    ∀ e ∈ argsEvents gid p, ∀ i, e ≠ Event.toolCallEnd i := by
  intro e he i
  cases p with
  | none => cases he
  | some ps =>
      simp only [argsEvents] at he
      split_ifs at he
      · rcases List.mem_singleton.mp he with rfl
        exact fun hq => Event.noConfusion hq
      · cases he

lemma argsEvents_of_empty (gid : String) (p : Option (List (String × String)))
    (h : paramsNonempty p = false) : argsEvents gid p = [] := by
  cases p with
  | none => rfl
  | some ps =>
      have hq : ¬ ps.length > 0 := by simpa [paramsNonempty] using h
      simp [argsEvents, hq]

/-- Claim C3: the after-result hook with a session key pops the most
recently pushed pending tool-call id (the stack top, last-in-first-out);
it emits nothing when the writer, the popped id, or the run message-id is
missing, and otherwise emits exactly a "tool call result" event (popped
id, message-id, empty content) followed by a "tool call ended" event for
the same id. -/
theorem tool_result_persist_lifo_events (sk : String) (σ : Store) :
    (handleToolResultPersist (some sk) σ).1.pendingStacks sk =
      (σ.pendingStacks sk).dropLast ∧
    ((getWriter σ sk = false ∨ (σ.pendingStacks sk).getLast? = none ∨
        getMessageId σ sk = none) →
      (handleToolResultPersist (some sk) σ).2 = []) ∧
    (∀ tid mid, getWriter σ sk = true → (σ.pendingStacks sk).getLast? = some tid →
      getMessageId σ sk = some mid →
      (handleToolResultPersist (some sk) σ).2 =
        [Event.toolCallResult tid mid "", Event.toolCallEnd tid]) := by
  obtain ⟨hs, he⟩ := handleToolResultPersist_spec sk σ
  refine ⟨?_, ?_, ?_⟩
  · rw [hs]; exact popToolCallId_pendingStacks sk σ
  · intro hmiss
    rw [he]
    rcases hw : getWriter σ sk <;>
      rcases hl : (σ.pendingStacks sk).getLast? with _ | tid <;>
        rcases hm : getMessageId σ sk with _ | mid <;> simp_all
  · intro tid mid hw hl hm
    rw [he, hw, hl, hm]

/-- Concrete check of `tool_result_persist_lifo_events` on the store the
unit tests build. -/
theorem tool_result_persist_lifo_events_witness :
    (handleToolResultPersist (some "s") sampleHookStore).1.pendingStacks "s" = [] ∧
    (handleToolResultPersist (some "s") sampleHookStore).2 =
      [Event.toolCallResult "tc-1" "msg-001" "", Event.toolCallEnd "tc-1"] := by
  constructor
  · exact ((tool_result_persist_lifo_events "s" sampleHookStore).1).trans (by decide)
  · exact (tool_result_persist_lifo_events "s" sampleHookStore).2.2 "tc-1" "msg-001"
      (by decide) (by decide) (by decide)

/-- Claim C4: a before-call hook invocation that emits events classifies
the tool: a client tool gets an immediate "tool call ended" event for the
fresh id, sets the "client tool called" flag, and is never pushed onto the
pending stack; a host-executed tool is pushed onto the pending stack and
this hook emits no end event for it. -/
theorem before_tool_call_classifies (n : String) (p : Option (List (String × String)))
    (sk gid : String) (σ : Store) (hw : getWriter σ sk = true) :
    (isClientTool σ sk n = true →
      (handleBeforeToolCall n p (some sk) gid σ).2 =
        Event.toolCallStart gid n :: argsEvents gid p ++ [Event.toolCallEnd gid] ∧
      wasClientToolCalled (handleBeforeToolCall n p (some sk) gid σ).1 sk = true ∧
      (handleBeforeToolCall n p (some sk) gid σ).1.pendingStacks sk =
        σ.pendingStacks sk) ∧
    (isClientTool σ sk n = false →
      (handleBeforeToolCall n p (some sk) gid σ).1.pendingStacks sk =
        σ.pendingStacks sk ++ [gid] ∧
      (handleBeforeToolCall n p (some sk) gid σ).2 =
        Event.toolCallStart gid n :: argsEvents gid p ∧
      ∀ e ∈ (handleBeforeToolCall n p (some sk) gid σ).2, ∀ i,
        e ≠ Event.toolCallEnd i) := by
  constructor
  · intro hc
    rw [handleBeforeToolCall_client n p sk gid σ hw hc]
    refine ⟨rfl, ?_, rfl⟩
    show (if sk = sk then true else σ.clientToolCalledFlags sk) = true
    simp
  · intro hc
    rw [handleBeforeToolCall_server n p sk gid σ hw hc]
    refine ⟨?_, rfl, ?_⟩
    · show (if sk = sk then σ.pendingStacks sk ++ [gid] else σ.pendingStacks sk) = _
      simp
    · intro e he i
      rcases List.mem_cons.mp he with rfl | h2
      · exact fun hq => Event.noConfusion hq
      · exact argsEvents_no_end gid p e h2 i

/-- Concrete check of `before_tool_call_classifies`: `get_weather` is
client-marked (three events, flag set, nothing pushed); `search_db` is
not (pushed, no end event). -/
theorem before_tool_call_classifies_witness :
    getWriter sampleClientStore "s" = true ∧
    isClientTool sampleClientStore "s" "get_weather" = true ∧
    isClientTool sampleClientStore "s" "search_db" = false ∧
    (handleBeforeToolCall "get_weather" (some [("city", "Tokyo")]) (some "s")
        "tool-0" sampleClientStore).2 =
      [Event.toolCallStart "tool-0" "get_weather",
       Event.toolCallArgs "tool-0" "\x7b\"city\":\"Tokyo\"\x7d",
       Event.toolCallEnd "tool-0"] ∧
    (handleBeforeToolCall "search_db" (some [("q", "x")]) (some "s")
        "tool-1" sampleClientStore).1.pendingStacks "s" = ["tool-1"] := by
  refine ⟨by decide, by decide, by decide, ?_, ?_⟩
  · exact (((before_tool_call_classifies "get_weather" (some [("city", "Tokyo")])
      "s" "tool-0" sampleClientStore (by decide)).1 (by decide)).1).trans (by decide)
  · exact (((before_tool_call_classifies "search_db" (some [("q", "x")])
      "s" "tool-1" sampleClientStore (by decide)).2 (by decide)).1).trans (by decide)

/-- Claim C5: a before-call hook invocation with a session key and a bound
writer emits "tool call started" (fresh id, tool name) first, marks the
session's "tool fired this run" flag, and emits a "tool call arguments"
event (id plus serialized parameters) as the next event if and only if a
non-empty parameter object was supplied — no empty-arguments event is ever
emitted. -/
theorem before_tool_call_start_and_args (n : String)
    (p : Option (List (String × String))) (sk gid : String) (σ : Store)
    (hw : getWriter σ sk = true) :
    ((handleBeforeToolCall n p (some sk) gid σ).2).head? =
        some (Event.toolCallStart gid n) ∧
    wasToolFiredInRun (handleBeforeToolCall n p (some sk) gid σ).1 sk = true ∧
    (∀ ps, p = some ps → 0 < ps.length →
      ((handleBeforeToolCall n p (some sk) gid σ).2)[1]? =
        some (Event.toolCallArgs gid (serializeParams ps))) ∧
    (paramsNonempty p = false →
      ∀ e ∈ (handleBeforeToolCall n p (some sk) gid σ).2, ∀ i d,
        e ≠ Event.toolCallArgs i d) := by
  rcases hc : isClientTool σ sk n
  · rw [handleBeforeToolCall_server n p sk gid σ hw hc]
    refine ⟨rfl, ?_, ?_, ?_⟩
    · show (if sk = sk then true else σ.toolFiredInRunFlags sk) = true
      simp
    · intro ps hps hlen
      subst hps
      simp [argsEvents, hlen]
    · intro hne e he i d
      rw [argsEvents_of_empty gid p hne] at he
      rcases List.mem_singleton.mp he with rfl
      exact fun hq => Event.noConfusion hq
  · rw [handleBeforeToolCall_client n p sk gid σ hw hc]
    refine ⟨rfl, ?_, ?_, ?_⟩
    · show (if sk = sk then true else σ.toolFiredInRunFlags sk) = true
      simp
    · intro ps hps hlen
      subst hps
      simp [argsEvents, hlen]
    · intro hne e he i d
      rw [argsEvents_of_empty gid p hne] at he
      rcases List.mem_cons.mp he with rfl | h2
      · exact fun hq => Event.noConfusion hq
      · rcases List.mem_singleton.mp h2 with rfl
        exact fun hq => Event.noConfusion hq

/-- Concrete check of `before_tool_call_start_and_args` on the spec's
`get_weather`/Tokyo scenario and on the empty-params case. -/
theorem before_tool_call_start_and_args_witness :
    getWriter sampleClientStore "s" = true ∧
    ((handleBeforeToolCall "get_weather" (some [("city", "Tokyo")]) (some "s")
        "tool-0" sampleClientStore).2).head? =
      some (Event.toolCallStart "tool-0" "get_weather") ∧
    ((handleBeforeToolCall "get_weather" (some [("city", "Tokyo")]) (some "s")
        "tool-0" sampleClientStore).2)[1]? =
      some (Event.toolCallArgs "tool-0" "\x7b\"city\":\"Tokyo\"\x7d") ∧
    wasToolFiredInRun (handleBeforeToolCall "get_weather" (some []) (some "s")
        "tool-0" sampleClientStore).1 "s" = true := by
  refine ⟨by decide, ?_, ?_, ?_⟩
  · exact (before_tool_call_start_and_args "get_weather" (some [("city", "Tokyo")])
      "s" "tool-0" sampleClientStore (by decide)).1
  · exact ((before_tool_call_start_and_args "get_weather" (some [("city", "Tokyo")])
      "s" "tool-0" sampleClientStore (by decide)).2.2.1 [("city", "Tokyo")] rfl
      (by decide)).trans (by decide)
  · exact (before_tool_call_start_and_args "get_weather" (some []) "s" "tool-0"
      sampleClientStore (by decide)).2.1

end HookClaims

section RunClaims

/-- Claim C1: for every run (any host-pipeline callback interleaving and
any initial store) with healthy transport and no client disconnect, the
"run started" event is emitted before any other event of the run, and the
stream ends with exactly one terminal event — "run finished" when dispatch
returns normally (via the final reply or the defensive close), and "run
finished" or "run error" when dispatch throws — never both for one run. -/
theorem run_envelope_correct (rc : RunCtx) (tools : List Tool) (acts : List Act)
    (throws : Option String) (σ₀ : Store) (hd : Act.disconnect ∉ acts) :
    (runModel noFail rc tools acts throws σ₀).out.head? =
        some (Event.runStarted rc.threadId rc.runId) ∧
    ∃ pre t, (runModel noFail rc tools acts throws σ₀).out = pre ++ [t] ∧
      isTerminal t = true ∧
      (runModel noFail rc tools acts throws σ₀).out.filter isTerminal = [t] ∧
      (throws = none → t = Event.runFinished rc.threadId rc.runId) :=
  runRest_noFail_envelope rc _ acts throws hd rfl rfl rfl

/-- Concrete check of `run_envelope_correct` on a run with one final
reply. -/
theorem run_envelope_correct_witness :
    Act.disconnect ∉ [Act.final (some "hi")] ∧
    ((runModel noFail sampleCtx [] [Act.final (some "hi")] none emptyStore).out.head? =
        some (Event.runStarted sampleCtx.threadId sampleCtx.runId) ∧
     ∃ pre t, (runModel noFail sampleCtx [] [Act.final (some "hi")] none
          emptyStore).out = pre ++ [t] ∧
        isTerminal t = true ∧
        (runModel noFail sampleCtx [] [Act.final (some "hi")] none
            emptyStore).out.filter isTerminal = [t] ∧
        ((none : Option String) = none →
          t = Event.runFinished sampleCtx.threadId sampleCtx.runId)) :=
  ⟨by decide,
   run_envelope_correct sampleCtx [] [Act.final (some "hi")] none emptyStore (by decide)⟩

/-- Claim C2: once the "client tool called" flag is set for the run's
session, no "text message started" or "text message content" event is
emitted during the rest of the run — every block reply from that point is
a no-op and the final reply's text is treated as empty — regardless of the
(possibly non-empty) text passed to either call, of transport failures,
and of how the run ends. -/
theorem client_tool_called_suppresses_text (fails : Nat → Bool) (rc : RunCtx)
    (s : RunState) (acts : List Act) (throws : Option String)
    (h : wasClientToolCalled s.store rc.sk = true) :
    (∀ p, sendBlockReply fails rc p s = s) ∧
    ∃ es, (runRest fails rc s acts throws).out = s.out ++ es ∧
      ∀ e ∈ es, isTextStartOrContent e = false := by
  refine ⟨fun p => sendBlockReply_of_flag fails rc p s h, ?_⟩
  obtain ⟨es1, h1, hm1, hf3⟩ := runSteps_flag_noText fails rc acts s h
  cases throws with
  | none =>
      obtain ⟨es2, h2, hmem2⟩ := closeNormal_out_sub fails rc (runSteps fails rc s acts)
      refine ⟨es1 ++ es2, ?_, ?_⟩
      · show (closeNormal fails rc (runSteps fails rc s acts)).out = _
        rw [h2, h1, List.append_assoc]
      · intro e he
        rcases List.mem_append.mp he with he' | he'
        · exact hm1 e he'
        · rcases hmem2 e he' with rfl | rfl <;> rfl
  | some msg =>
      obtain ⟨es2, h2, hmem2⟩ := closeError_out_sub fails rc msg (runSteps fails rc s acts)
      refine ⟨es1 ++ es2, ?_, ?_⟩
      · show (closeError fails rc msg (runSteps fails rc s acts)).out = _
        rw [h2, h1, List.append_assoc]
      · intro e he
        rcases List.mem_append.mp he with he' | he'
        · exact hm1 e he'
        · rcases hmem2 e he' with rfl; rfl

/-- Concrete check of `client_tool_called_suppresses_text`: with the flag
set, a non-empty block reply and a non-empty final reply add no text
events. -/
theorem client_tool_called_suppresses_text_witness :
    wasClientToolCalled sampleFlagState.store sampleCtx.sk = true ∧
    ((∀ p, sendBlockReply noFail sampleCtx p sampleFlagState = sampleFlagState) ∧
     ∃ es, (runRest noFail sampleCtx sampleFlagState
          [Act.block (some "unwanted text"), Act.final (some "also unwanted")]
          none).out = sampleFlagState.out ++ es ∧
        ∀ e ∈ es, isTextStartOrContent e = false) :=
  ⟨by decide,
   client_tool_called_suppresses_text noFail sampleCtx sampleFlagState
     [Act.block (some "unwanted text"), Act.final (some "also unwanted")] none (by decide)⟩

/-- Claim C6: a final reply on an open stream emits, in order: the
residual terminal text (the passed text trimmed, or empty when a client
tool fired) as one content delta preceded by "text message started" when
none was emitted earlier; a single "text message ended" if and only if a
"text message started" was ever emitted this run; exactly one
"run finished"; and it marks the run closed and terminates the output
stream. -/
theorem final_reply_on_open_stream (rc : RunCtx) (p : Option String) (s : RunState)
    (text : String) (h : s.closed = false)
    (htext : text = if wasClientToolCalled s.store rc.sk = true then ""
      else (p.getD "").trim) :
    (sendFinalReply noFail rc p s).out =
      s.out ++
        ((if text = "" then []
          else (if s.messageStarted = true then []
            else [Event.textMessageStart rc.messageId]) ++
              [Event.textMessageContent rc.messageId text]) ++
         (if s.messageStarted = true ∨ ¬ text = ""
          then [Event.textMessageEnd rc.messageId] else []) ++
         [Event.runFinished rc.threadId rc.runId]) ∧
    (sendFinalReply noFail rc p s).closed = true ∧
    (sendFinalReply noFail rc p s).ended = true := by
  subst htext
  by_cases hf : wasClientToolCalled s.store rc.sk = true
  · by_cases hm : s.messageStarted = true
    · refine ⟨?_, ?_, ?_⟩ <;> simp [sendFinalReply, hf, hm, h, writeEvent_noFail_open]
    · refine ⟨?_, ?_, ?_⟩ <;> simp [sendFinalReply, hf, hm, h, writeEvent_noFail_open]
  · by_cases ht : (p.getD "").trim = ""
    · by_cases hm : s.messageStarted = true
      · refine ⟨?_, ?_, ?_⟩ <;>
          simp [sendFinalReply, hf, ht, hm, h, writeEvent_noFail_open]
      · refine ⟨?_, ?_, ?_⟩ <;>
          simp [sendFinalReply, hf, ht, hm, h, writeEvent_noFail_open]
    · by_cases hm : s.messageStarted = true
      · refine ⟨?_, ?_, ?_⟩ <;>
          simp [sendFinalReply, hf, ht, hm, h, writeEvent_noFail_open]
      · refine ⟨?_, ?_, ?_⟩ <;>
          simp [sendFinalReply, hf, ht, hm, h, writeEvent_noFail_open]

/-- Concrete check of `final_reply_on_open_stream`: a final reply on an
open run with an already-opened message and the client-tool flag set, so
the passed text is discarded, the message is closed and the run finishes. -/
theorem final_reply_on_open_stream_witness :
    sampleStartedFlagState.closed = false ∧
    (("" : String) =
      if wasClientToolCalled sampleStartedFlagState.store sampleCtx.sk = true then ""
      else ((some "ignored" : Option String).getD "").trim) ∧
    ((sendFinalReply noFail sampleCtx (some "ignored") sampleStartedFlagState).out =
      sampleStartedFlagState.out ++
        ((if ("" : String) = "" then []
          else (if sampleStartedFlagState.messageStarted = true then []
            else [Event.textMessageStart sampleCtx.messageId]) ++
              [Event.textMessageContent sampleCtx.messageId ""]) ++
         (if sampleStartedFlagState.messageStarted = true ∨ ¬ ("" : String) = ""
          then [Event.textMessageEnd sampleCtx.messageId] else []) ++
         [Event.runFinished sampleCtx.threadId sampleCtx.runId]) ∧
     (sendFinalReply noFail sampleCtx (some "ignored") sampleStartedFlagState).closed = true ∧
     (sendFinalReply noFail sampleCtx (some "ignored") sampleStartedFlagState).ended = true) :=
  ⟨rfl, by decide,
   final_reply_on_open_stream sampleCtx (some "ignored") sampleStartedFlagState "" rfl
     (by decide)⟩

end RunClaims

section CleanupClaims

lemma cleanup_clears (sk : String) (σ : Store) :
    getWriter (cleanup sk σ) sk = false ∧
    getMessageId (cleanup sk σ) sk = none ∧
    wasClientToolCalled (cleanup sk σ) sk = false ∧
    (cleanup sk σ).clientToolNames sk = none := by
  refine ⟨?_, ?_, ?_, ?_⟩ <;>
    simp [cleanup, clearWriter, clearClientToolCalled, clearClientToolNames,
      getWriter, getMessageId, wasClientToolCalled, upd]

/-- Counterexample to claim C7 as stated: a run whose before-call hook
pushed a host-executed tool-call id that was never resolved leaves the
pending stack for the session non-empty after the run's guaranteed
cleanup — the cleanup path does not clear the pending tool-call stack. -/
theorem session_cleanup_counterexample :
    (runModel noFail sampleCtx [] [Act.beforeTool "w" none] none
        emptyStore).store.pendingStacks "s" ≠ [] := by
  decide

/-- Claim C7 (amended): after every run — success, dispatch error, any
transport behavior — the guaranteed cleanup clears the emitter binding,
the run message-id, the "client tool called" flag and the client-tool-name
set for the run's session identifier; the pending tool-call stack, the
stashed tool list and the "tool fired this run" flag are not part of this
cleanup path and may survive the run. -/
theorem session_cleanup_amended (fails : Nat → Bool) (rc : RunCtx) (tools : List Tool)
    (acts : List Act) (throws : Option String) (σ₀ : Store) :
    getWriter (runModel fails rc tools acts throws σ₀).store rc.sk = false ∧
    getMessageId (runModel fails rc tools acts throws σ₀).store rc.sk = none ∧
    wasClientToolCalled (runModel fails rc tools acts throws σ₀).store rc.sk = false ∧
    (runModel fails rc tools acts throws σ₀).store.clientToolNames rc.sk = none :=
  cleanup_clears rc.sk _

/-- Claim C8: every read operation of the session state store returns its
defined default on a session identifier whose fields are all absent
(never initialized or fully cleared): draining tools yields the empty
list, popping a pending id yields none, the client-tool query and both
boolean flags yield false, and the emitter and message-id lookups yield
"not present".  All operations are total functions, so none can throw. -/
theorem store_defaults_total (σ : Store) (sk : String)
    (h1 : σ.toolStore sk = none) (h2 : σ.writerStore sk = false)
    (h3 : σ.messageIdStore sk = none) (h4 : σ.pendingStacks sk = [])
    (h5 : σ.clientToolNames sk = none) (h6 : σ.clientToolCalledFlags sk = false)
    (h7 : σ.toolFiredInRunFlags sk = false) :
    (popTools sk σ).1 = [] ∧ (popToolCallId sk σ).1 = none ∧
    (∀ n, isClientTool σ sk n = false) ∧
    wasClientToolCalled σ sk = false ∧ wasToolFiredInRun σ sk = false ∧
    getWriter σ sk = false ∧ getMessageId σ sk = none := by
  refine ⟨?_, ?_, ?_, h6, h7, h2, h3⟩
  · simp [popTools, h1]
  · simp [popToolCallId, h4]
  · intro n; simp [isClientTool, h5]

/-- Concrete check of `store_defaults_total` on the empty store. -/
theorem store_defaults_total_witness :
    emptyStore.toolStore "s" = none ∧ emptyStore.pendingStacks "s" = [] ∧
    ((popTools "s" emptyStore).1 = [] ∧ (popToolCallId "s" emptyStore).1 = none ∧
     (∀ n, isClientTool emptyStore "s" n = false) ∧
     wasClientToolCalled emptyStore "s" = false ∧
     wasToolFiredInRun emptyStore "s" = false ∧
     getWriter emptyStore "s" = false ∧ getMessageId emptyStore "s" = none) :=
  ⟨rfl, rfl, store_defaults_total emptyStore "s" rfl rfl rfl rfl rfl rfl rfl⟩

/-- Claim C9: a stream-write failure on an open stream is absorbed by
`writeEvent` (embedded as a total function, so no exception can escape):
it flips the closed flag and appends nothing, and the entire remainder of
the run — any further callbacks, the close path and the cleanup — appends
no further event to the output. -/
theorem write_failure_silences_run (fails : Nat → Bool) (rc : RunCtx) (s : RunState)
    (e : Event) (acts : List Act) (throws : Option String)
    (hopen : s.closed = false) (hfail : fails s.attempts = true) :
    (writeEvent fails s e).closed = true ∧
    (writeEvent fails s e).out = s.out ∧
    (runRest fails rc (writeEvent fails s e) acts throws).out = s.out := by
  have hcl : (writeEvent fails s e).closed = true := by
    simp [writeEvent, hopen, hfail]
  have hout : (writeEvent fails s e).out = s.out := by
    simp [writeEvent, hopen, hfail]
  exact ⟨hcl, hout, (runRest_of_closed fails rc _ acts throws hcl).trans hout⟩

/-- Concrete check of `write_failure_silences_run`: the very first write
of a run fails, and a subsequent block reply adds nothing. -/
theorem write_failure_silences_run_witness :
    sampleInit.closed = false ∧ (fun _ => true : Nat → Bool) sampleInit.attempts = true ∧
    ((writeEvent (fun _ => true) sampleInit (Event.runStarted "t" "r")).closed = true ∧
     (writeEvent (fun _ => true) sampleInit (Event.runStarted "t" "r")).out =
       sampleInit.out ∧
     (runRest (fun _ => true) sampleCtx
        (writeEvent (fun _ => true) sampleInit (Event.runStarted "t" "r"))
        [Act.block (some "x")] none).out = sampleInit.out) :=
  ⟨rfl, rfl,
   write_failure_silences_run (fun _ => true) sampleCtx sampleInit
     (Event.runStarted "t" "r") [Act.block (some "x")] none rfl rfl⟩

/-- Claim C10: an after-result hook invocation for a session with a
non-empty pending stack but no bound emitter (or no stored run
message-id) emits nothing, yet still pops the most recently pushed
tool-call id: the silent branch mutates the pending stack, leaving it
strictly changed. -/
theorem persist_pops_without_emitter (sk : String) (σ : Store)
    (hne : σ.pendingStacks sk ≠ [])
    (hmiss : getWriter σ sk = false ∨ getMessageId σ sk = none) :
    (handleToolResultPersist (some sk) σ).2 = [] ∧
    (handleToolResultPersist (some sk) σ).1.pendingStacks sk =
      (σ.pendingStacks sk).dropLast ∧
    (handleToolResultPersist (some sk) σ).1.pendingStacks sk ≠
      σ.pendingStacks sk := by
  obtain ⟨hs, he⟩ := handleToolResultPersist_spec sk σ
  have hdrop : (handleToolResultPersist (some sk) σ).1.pendingStacks sk =
      (σ.pendingStacks sk).dropLast := by
    rw [hs]; exact popToolCallId_pendingStacks sk σ
  refine ⟨?_, hdrop, ?_⟩
  · rw [he]
    rcases hw : getWriter σ sk <;>
      rcases hl : (σ.pendingStacks sk).getLast? with _ | tid <;>
        rcases hm : getMessageId σ sk with _ | mid <;> simp_all
  · rw [hdrop]
    intro hcontra
    have hlen := congrArg List.length hcontra
    rw [List.length_dropLast] at hlen
    have hpos : 0 < (σ.pendingStacks sk).length := List.length_pos.mpr hne
    omega

/-- Concrete check of `persist_pops_without_emitter`: one pending id and
no writer — nothing emitted, the id is discarded. -/
theorem persist_pops_without_emitter_witness :
    (pushToolCallId "s" "a" emptyStore).pendingStacks "s" ≠ [] ∧
    getWriter (pushToolCallId "s" "a" emptyStore) "s" = false ∧
    ((handleToolResultPersist (some "s") (pushToolCallId "s" "a" emptyStore)).2 = [] ∧
     (handleToolResultPersist (some "s")
        (pushToolCallId "s" "a" emptyStore)).1.pendingStacks "s" =
       ((pushToolCallId "s" "a" emptyStore).pendingStacks "s").dropLast ∧
     (handleToolResultPersist (some "s")
        (pushToolCallId "s" "a" emptyStore)).1.pendingStacks "s" ≠
       (pushToolCallId "s" "a" emptyStore).pendingStacks "s") :=
  ⟨by decide, by decide,
   persist_pops_without_emitter "s" (pushToolCallId "s" "a" emptyStore)
     (by decide) (Or.inl (by decide))⟩

end CleanupClaims
